import Mathlib

/-!
Verification of the pedometer core (StepCounter, ResetTimer, StorageManager)
against its specification.

Shallow embedding conventions:
* Epoch instants are `Int` milliseconds.  Civil-day arithmetic
  (`Date.setHours(h, m, 0, 0)`, `Date.setDate(d ± 1)`) is modelled with a
  fixed-offset calendar whose day is exactly `86400000` ms, matching the
  spec's boundary math ("add 24 hours"); no DST is modelled.
* `localStorage` is an in-memory record holding the three typed slots the
  code uses.  `JSON.stringify`/`JSON.parse` round-trip is the identity on
  the typed values; the validation performed by the load/save functions is
  embedded explicitly.
* Acceleration components are rationals.  The comparison
  `Math.sqrt (x²+y²+z²) > threshold` is embedded by the rational predicate
  `sqrtGt` (`t < 0 ∨ t² < m`), which is proved equivalent to the real
  square-root comparison (`sqrtGt_iff_real`), keeping every operation
  executable.
* Observer callbacks are `Int → Except String Unit`; `Except.error`
  models a callback that throws.
* `Date.prototype.toISOString` is a platform primitive; it is modelled
  abstractly by `toISOString`, a non-empty textual rendering of the
  instant (the code only ever relies on the date string being a non-empty
  string).
-/

/-- Milliseconds in one civil day (`24 * 60 * 60 * 1000`). -/
def msPerDay : Int := 86400000

/-- Start of the civil day containing instant `t` (what `setHours(0,0,0,0)`
would produce in the fixed-offset calendar). -/
def dayStart (t : Int) : Int := t - t % msPerDay

/-- Numeric value of a decimal digit character (`Number` on a digit). -/
def digitVal (c : Char) : Nat := c.toNat - 48

/-- Decompose a string into exactly five characters `HH:MM`-shaped input;
any other length is rejected (the regex `^..$` anchors both ends). -/
def splitHM (s : String) : Option (Char × Char × Char × Char × Char) :=
  match s.data with
  | [h1, h2, c, m1, m2] => some (h1, h2, c, m1, m2)
  | _ => none

/-- Hour part of the regex `([0-1][0-9]|2[0-3])`. -/
def hourValid (h1 h2 : Char) : Bool :=
  ((h1 == '0' || h1 == '1') && h2.isDigit) ||
    (h1 == '2' && (h2 == '0' || h2 == '1' || h2 == '2' || h2 == '3'))

/-- Minute part of the regex `[0-5][0-9]`. -/
def minuteValid (m1 m2 : Char) : Bool :=
  (m1 == '0' || m1 == '1' || m1 == '2' || m1 == '3' || m1 == '4' || m1 == '5') && m2.isDigit

/-- The reset-time grammar `^([0-1][0-9]|2[0-3]):[0-5][0-9]$` used by
`StorageManager.getResetTime` / `StorageManager.setResetTime`. -/
def validResetTime (s : String) : Bool :=
  match splitHM s with
  | some (h1, h2, c, m1, m2) => c == ':' && hourValid h1 h2 && minuteValid m1 m2
  | none => false

/-- Embeds `resetTime.split(':').map(Number)` for the shapes reachable in
the code (reset-time strings have already passed, or will be guarded by,
the grammar above; other shapes would yield `NaN` hours/minutes in the
source and are unreachable). -/
def parseResetTime (s : String) : Option (Nat × Nat) :=
  match splitHM s with
  | some (h1, h2, c, m1, m2) =>
    if c == ':' then
      some (10 * digitVal h1 + digitVal h2, 10 * digitVal m1 + digitVal m2)
    else none
  | none => none

/-- Persisted step record (`{steps, timestamp}`). -/
structure StepData where
  steps : Int
  timestamp : Int
deriving DecidableEq, Repr

/-- Persisted history entry (`{steps, date}`). -/
structure HistoryEntry where
  steps : Int
  date : String
deriving DecidableEq, Repr

/-- The three `localStorage` slots used by `StorageManager`
(`stepCounter_currentData`, `stepCounter_resetTime`, `stepCounter_history`). -/
structure LocalStorage where
  stepData : Option StepData
  resetTime : Option String
  history : Option (List HistoryEntry)
deriving DecidableEq, Repr

/-- Storage with nothing persisted yet. -/
def emptyStorage : LocalStorage := ⟨none, none, none⟩

/-- Default reset time `'00:00'`. -/
def DEFAULT_RESET_TIME : String := "00:00"

/-- `StorageManager.saveStepData`: validates the record, stores it,
returns the success flag together with the updated storage. -/
def StorageManager.saveStepData (data : StepData) (st : LocalStorage) :
    Bool × LocalStorage :=
  if 0 ≤ data.steps ∧ 0 ≤ data.timestamp then
    (true, { st with stepData := some data })
  else
    (false, st)

/-- `StorageManager.loadStepData`: returns the stored record if present and
valid, `none` otherwise. -/
def StorageManager.loadStepData (st : LocalStorage) : Option StepData :=
  match st.stepData with
  | none => none
  | some d => if 0 ≤ d.steps ∧ 0 ≤ d.timestamp then some d else none

/-- `StorageManager.getResetTime`: stored value if present and matching the
grammar, else the default `'00:00'`. -/
def StorageManager.getResetTime (st : LocalStorage) : String :=
  match st.resetTime with
  | none => DEFAULT_RESET_TIME
  | some t => if validResetTime t then t else DEFAULT_RESET_TIME

/-- `StorageManager.setResetTime`: persists the string iff it matches the
grammar; an invalid candidate is rejected and storage is untouched. -/
def StorageManager.setResetTime (time : String) (st : LocalStorage) :
    Bool × LocalStorage :=
  if validResetTime time then
    (true, { st with resetTime := some time })
  else
    (false, st)

/-- Entry validation shared by `saveHistory` and `loadHistory`:
steps a non-negative integer, date a non-empty string. -/
def validHistoryEntry (e : HistoryEntry) : Bool :=
  decide (0 ≤ e.steps) && decide (e.date ≠ "")

/-- `history.slice(-30)`: the most recent 30 entries (all of them when the
list is shorter). -/
def sliceLast30 {α : Type} (l : List α) : List α :=
  l.drop (l.length - 30)

/-- `StorageManager.loadHistory`: the stored array if every entry is
valid; the empty list on absence or corruption. -/
def StorageManager.loadHistory (st : LocalStorage) : List HistoryEntry :=
  match st.history with
  | none => []
  | some l => if l.all validHistoryEntry then l else []

/-- `StorageManager.saveHistory`: validates the entry, appends it to the
loaded history, keeps only the most recent 30 entries, stores the result. -/
def StorageManager.saveHistory (entry : HistoryEntry) (st : LocalStorage) :
    Bool × LocalStorage :=
  if validHistoryEntry entry then
    (true, { st with
      history := some (sliceLast30 (StorageManager.loadHistory st ++ [entry])) })
  else
    (false, st)

/-- Accelerometer sample `{x, y, z}`. -/
structure Accel where
  x : ℚ
  y : ℚ
  z : ℚ
deriving DecidableEq, Repr

/-- Squared Euclidean magnitude `x² + y² + z²` of a sample. -/
def magSq (a : Accel) : ℚ := a.x ^ 2 + a.y ^ 2 + a.z ^ 2

/-- Rational rendering of `Math.sqrt m > t` for `0 ≤ m`: the square root
of `m` exceeds `t` iff `t` is negative or `t² < m`.  Proved equivalent to
the real comparison in `sqrtGt_iff_real`. -/
def sqrtGt (m t : ℚ) : Prop := t < 0 ∨ t ^ 2 < m

instance (m t : ℚ) : Decidable (sqrtGt m t) :=
  inferInstanceAs (Decidable (t < 0 ∨ t ^ 2 < m))

/-- In-memory state of a `StepCounter` (constructor fields).  The maximum
observed magnitude is tracked squared (`maxMagnitudeSq = maxMagnitude²`),
which is equivalent since magnitudes are non-negative. -/
structure SCState where
  currentSteps : Int
  lastStepTime : Int
  stepThreshold : ℚ
  minStepInterval : Int
  motionCount : Int
  maxMagnitudeSq : ℚ
deriving DecidableEq, Repr

/-- The state produced by the `StepCounter` constructor:
count 0, threshold 0.5, debounce window 200 ms, debug counters zeroed. -/
def initSC : SCState := ⟨0, 0, 1 / 2, 200, 0, 0⟩

/-- Observable effects of processing one event: the records written through
`saveStepData` and the counts handed to the observer fan-out. -/
structure Trace where
  writes : List StepData
  notifies : List Int
deriving DecidableEq, Repr

/-- Result of a `StepCounter` operation: new state, new storage, effects. -/
structure MotionResult where
  counter : SCState
  storage : LocalStorage
  trace : Trace
deriving DecidableEq, Repr

/-- `StepCounter.isStep`: accepts the sample iff the magnitude exceeds the
threshold and the debounce window has elapsed; on acceptance it records
`lastStepTime = now` (a side effect performed inside `isStep` in the
source). -/
def StepCounter.isStep (sc : SCState) (a : Accel) (now : Int) :
    Bool × SCState :=
  if sqrtGt (magSq a) sc.stepThreshold ∧ sc.minStepInterval ≤ now - sc.lastStepTime then
    (true, { sc with lastStepTime := now })
  else
    (false, sc)

/-- `StepCounter.incrementStep`: increment the count, persist
`{steps, timestamp: now}` immediately, notify observers with the new raw
count. -/
def StepCounter.incrementStep (sc : SCState) (st : LocalStorage) (now : Int) :
    MotionResult :=
  let sc2 : SCState := { sc with currentSteps := sc.currentSteps + 1 }
  let save := StorageManager.saveStepData ⟨sc2.currentSteps, now⟩ st
  ⟨sc2, save.2, ⟨[⟨sc2.currentSteps, now⟩], [sc2.currentSteps]⟩⟩

/-- `StepCounter.reset`: zero the count, persist `{steps: 0, timestamp:
now}`, notify observers with the (zeroed) raw count. -/
def StepCounter.reset (sc : SCState) (st : LocalStorage) (now : Int) :
    MotionResult :=
  let sc2 : SCState := { sc with currentSteps := 0 }
  let save := StorageManager.saveStepData ⟨0, now⟩ st
  ⟨sc2, save.2, ⟨[⟨0, now⟩], [sc2.currentSteps]⟩⟩

/-- `StepCounter.getCurrentSteps`: `Math.max(0, this.currentSteps)`. -/
def StepCounter.getCurrentSteps (sc : SCState) : Int :=
  max 0 sc.currentSteps

/-- `StepCounter.notifyMotionDetected` (debug): records a new maximum
magnitude (`!this.maxMagnitude || magnitude > this.maxMagnitude`, squared
form). -/
def StepCounter.notifyMotionDetected (sc : SCState) (mSq : ℚ) : SCState :=
  if sc.maxMagnitudeSq = 0 ∨ sc.maxMagnitudeSq < mSq then
    { sc with maxMagnitudeSq := mSq }
  else
    sc

/-- `StepCounter.onMotionDetected`: bump the debug motion counter, update
the debug maximum, classify the sample, and on acceptance run
`incrementStep`. -/
def StepCounter.onMotionDetected (sc : SCState) (st : LocalStorage)
    (a : Accel) (now : Int) : MotionResult :=
  let sc1 : SCState := { sc with motionCount := sc.motionCount + 1 }
  let sc2 := StepCounter.notifyMotionDetected sc1 (magSq a)
  let step := StepCounter.isStep sc2 a now
  if step.1 then
    StepCounter.incrementStep step.2 st now
  else
    ⟨step.2, st, ⟨[], []⟩⟩

/-- `ResetTimer.calculateNextResetTime`: same-day instant at `HH:MM`,
moved to tomorrow when it is at or before `now`. -/
def ResetTimer.calculateNextResetTime (resetTime : String) (now : Int) :
    Option Int :=
  match parseResetTime resetTime with
  | none => none
  | some hm =>
    let d := dayStart now + (hm.1 : Int) * 3600000 + (hm.2 : Int) * 60000
    some (if d ≤ now then d + msPerDay else d)

/-- `ResetTimer.calculateLastResetTime`: same-day instant at `HH:MM`,
moved to yesterday when it is strictly after `now`. -/
def ResetTimer.calculateLastResetTime (resetTime : String) (now : Int) :
    Option Int :=
  match parseResetTime resetTime with
  | none => none
  | some hm =>
    let d := dayStart now + (hm.1 : Int) * 3600000 + (hm.2 : Int) * 60000
    some (if now < d then d - msPerDay else d)

/-- `StepCounter.isCurrentPeriod`: the timestamp is at or after the last
boundary (the source duplicates `calculateLastResetTime` inside
`StepCounter`; the shared definition is used here). -/
def StepCounter.isCurrentPeriod (st : LocalStorage) (timestamp now : Int) :
    Bool :=
  match ResetTimer.calculateLastResetTime (StorageManager.getResetTime st) now with
  | some lastReset => decide (lastReset ≤ timestamp)
  | none => false

/-- `StepCounter.initialize`: restore the stored count when its timestamp
falls in the current period, otherwise start from zero and persist the
fresh record. -/
def StepCounter.init (sc : SCState) (st : LocalStorage) (now : Int) :
    SCState × LocalStorage :=
  match StorageManager.loadStepData st with
  | some saved =>
    if StepCounter.isCurrentPeriod st saved.timestamp now then
      ({ sc with currentSteps := saved.steps }, st)
    else
      ({ sc with currentSteps := 0 },
        (StorageManager.saveStepData ⟨0, now⟩ st).2)
  | none =>
    ({ sc with currentSteps := 0 },
      (StorageManager.saveStepData ⟨0, now⟩ st).2)

/-- `StepCounter.notifyObservers`: invoke every observer in order with the
given count; a throwing callback (`Except.error`) is caught and recorded,
and the loop continues with the remaining observers. -/
def StepCounter.notifyObservers (observers : List (Int → Except String Unit))
    (count : Int) : List (Except String Unit) :=
  match observers with
  | [] => []
  | o :: rest =>
    match o count with
    | Except.ok _ => Except.ok () :: StepCounter.notifyObservers rest count
    | Except.error e => Except.error e :: StepCounter.notifyObservers rest count

/-- Combined state owned by a `ResetTimer`: the step counter it drives,
the storage both share, and the armed timer delay (`timerId`). -/
structure System where
  counter : SCState
  storage : LocalStorage
  timerDelay : Option Int
deriving DecidableEq, Repr

/-- Abstract model of `Date.prototype.toISOString` (platform primitive):
a non-empty textual rendering of the instant.  The code relies only on the
date string being non-empty (history-entry validation). -/
def toISOString (now : Int) : String := "T" ++ toString now

/-- `ResetTimer.executeReset`: archive the externally observable pre-reset
count into history, then zero the counter. -/
def ResetTimer.executeReset (sys : System) (now : Int) : System :=
  let currentSteps := StepCounter.getCurrentSteps sys.counter
  let st1 := (StorageManager.saveHistory ⟨currentSteps, toISOString now⟩ sys.storage).2
  let r := StepCounter.reset sys.counter st1 now
  ⟨r.counter, r.storage, sys.timerDelay⟩

/-- `ResetTimer.scheduleReset`: clear any armed timer and arm a single
wake-up after the given delay. -/
def ResetTimer.scheduleReset (sys : System) (milliseconds : Int) : System :=
  { sys with timerDelay := some milliseconds }

/-- `ResetTimer.start`: read the configured reset time, perform the
catch-up reset when the persisted record predates the last boundary, then
arm the timer for the next boundary.  The second component counts how many
times `executeReset` ran (the source calls it at most once here). -/
def ResetTimer.start (sys : System) (now : Int) : System × Nat :=
  let resetTime := StorageManager.getResetTime sys.storage
  match ResetTimer.calculateNextResetTime resetTime now,
        ResetTimer.calculateLastResetTime resetTime now with
  | some nextReset, some lastReset =>
    let stepped :=
      match StorageManager.loadStepData sys.storage with
      | some saved =>
        if saved.timestamp < lastReset then (ResetTimer.executeReset sys now, 1)
        else (sys, 0)
      | none => (sys, 0)
    (ResetTimer.scheduleReset stepped.1 (nextReset - now), stepped.2)
  | _, _ => (sys, 0)

/-- Externally driveable operations on a step counter, including direct
corruption of the internal count field. -/
inductive SCOp where
  | init : Int → SCOp
  | motion : Accel → Int → SCOp
  | reset : Int → SCOp
  | corrupt : Int → SCOp
deriving Repr

/-- Apply one operation to a counter/storage pair. -/
def applyOp (p : SCState × LocalStorage) (op : SCOp) : SCState × LocalStorage :=
  match op with
  | SCOp.init now => StepCounter.init p.1 p.2 now
  | SCOp.motion a now =>
    let r := StepCounter.onMotionDetected p.1 p.2 a now
    (r.counter, r.storage)
  | SCOp.reset now =>
    let r := StepCounter.reset p.1 p.2 now
    (r.counter, r.storage)
  | SCOp.corrupt k => ({ p.1 with currentSteps := k }, p.2)

/-- Run a sequence of operations. -/
def runOps (p : SCState × LocalStorage) (ops : List SCOp) :
    SCState × LocalStorage :=
  ops.foldl applyOp p

/-- Save a whole list of history entries in order. -/
def saveAllHistory (l : List HistoryEntry) (st : LocalStorage) : LocalStorage :=
  l.foldl (fun s e => (StorageManager.saveHistory e s).2) st

/-- Concrete system used by witnesses: counter fresh, a stale persisted
record `{steps: 5, timestamp: 0}`, reset time `15:00`, no timer armed. -/
def sampleSystem : System :=
  ⟨initSC, ⟨some ⟨5, 0⟩, some "15:00", none⟩, none⟩

/-- Concrete 35-entry history used by the eviction witness. -/
def w35 : List HistoryEntry :=
  (List.range 35).map (fun i => ⟨(i : Int), "d"⟩)

/-- Concrete system whose persisted record is inside the current period
(timestamp at or after the last boundary for reset time `15:00`). -/
def sampleSystem2 : System :=
  ⟨initSC, ⟨some ⟨5, 150000000⟩, some "15:00", none⟩, none⟩

/-! ## Helper lemmas -/

theorem validResetTime_parse (s : String) (hv : validResetTime s = true) :
    ∃ h m, parseResetTime s = some (h, m) := by
  unfold validResetTime at hv
  unfold parseResetTime
  match hsp : splitHM s with
  | none => rw [hsp] at hv; exact absurd hv (by simp)
  | some (h1, h2, c, m1, m2) =>
    rw [hsp] at hv
    simp only [Bool.and_eq_true, beq_iff_eq] at hv
    exact ⟨10 * digitVal h1 + digitVal h2, 10 * digitVal m1 + digitVal m2,
      by simp [hv.1.1]⟩

theorem magSq_nonneg (a : Accel) : 0 ≤ magSq a := by
  unfold magSq
  exact add_nonneg (add_nonneg (sq_nonneg a.x) (sq_nonneg a.y)) (sq_nonneg a.z)

theorem sqrtGt_iff_real (m t : ℚ) (hm : 0 ≤ m) :
    sqrtGt m t ↔ (t : ℝ) < Real.sqrt (m : ℝ) := by
  unfold sqrtGt
  by_cases ht : t < 0
  · constructor
    · intro _
      calc (t : ℝ) < 0 := by exact_mod_cast ht
        _ ≤ Real.sqrt (m : ℝ) := Real.sqrt_nonneg _
    · intro _; exact Or.inl ht
  · push_neg at ht
    have ht' : (0 : ℝ) ≤ (t : ℝ) := by exact_mod_cast ht
    rw [Real.lt_sqrt ht']
    constructor
    · rintro (h | h)
      · exact absurd h (not_lt.mpr ht)
      · exact_mod_cast h
    · intro h; exact Or.inr (by exact_mod_cast h)

theorem toISOString_ne_empty (now : Int) : toISOString now ≠ "" := by
  intro h
  have hl := congrArg String.length h
  rw [toISOString, String.length_append] at hl
  have h1 : "T".length = 1 := rfl
  have h0 : "".length = 0 := rfl
  rw [h1, h0] at hl
  omega

theorem validHistoryEntry_iff (e : HistoryEntry) :
    validHistoryEntry e = true ↔ 0 ≤ e.steps ∧ e.date ≠ "" := by
  simp [validHistoryEntry]

theorem loadHistory_all_valid (st : LocalStorage) :
    (StorageManager.loadHistory st).all validHistoryEntry = true := by
  unfold StorageManager.loadHistory
  match st.history with
  | none => rfl
  | some l =>
    by_cases h : l.all validHistoryEntry = true
    · simp [h]
    · simp [h]

theorem sliceLast30_length_le {α : Type} (l : List α) :
    (sliceLast30 l).length ≤ 30 := by
  unfold sliceLast30
  rw [List.length_drop]
  omega

theorem sliceLast30_all {α : Type} (p : α → Bool) (l : List α)
    (h : l.all p = true) : (sliceLast30 l).all p = true := by
  rw [List.all_eq_true] at h ⊢
  intro x hx
  exact h x (List.mem_of_mem_drop hx)

theorem sliceLast30_append {α : Type} (x y : List α) :
    sliceLast30 (sliceLast30 x ++ y) = sliceLast30 (x ++ y) := by
  unfold sliceLast30
  rw [← List.drop_append_of_le_length (Nat.sub_le x.length 30), List.drop_drop]
  congr 1
  rw [List.length_append, List.length_drop, List.length_append]
  omega

theorem sliceLast30_concat_getLast {α : Type} (l : List α) (e : α) :
    (sliceLast30 (l ++ [e])).getLast? = some e := by
  unfold sliceLast30
  have hle : (l ++ [e]).length - 30 ≤ l.length := by
    rw [List.length_append]
    simp only [List.length_cons, List.length_nil]
    omega
  rw [List.drop_append_of_le_length hle, List.getLast?_concat]

theorem load_saveHistory (e : HistoryEntry) (st : LocalStorage)
    (he : validHistoryEntry e = true) :
    (StorageManager.saveHistory e st).1 = true ∧
      StorageManager.loadHistory (StorageManager.saveHistory e st).2 =
        sliceLast30 (StorageManager.loadHistory st ++ [e]) := by
  have hall : (sliceLast30 (StorageManager.loadHistory st ++ [e])).all
      validHistoryEntry = true := by
    apply sliceLast30_all
    rw [List.all_append, loadHistory_all_valid]
    simp [he]
  unfold StorageManager.saveHistory
  rw [if_pos he]
  refine ⟨rfl, ?_⟩
  generalize hR : sliceLast30 (StorageManager.loadHistory st ++ [e]) = R at hall ⊢
  unfold StorageManager.loadHistory
  simp [hall]

theorem saveHistory_success (e : HistoryEntry) (st : LocalStorage)
    (h : (StorageManager.saveHistory e st).1 = true) :
    validHistoryEntry e = true := by
  by_contra hne
  unfold StorageManager.saveHistory at h
  rw [if_neg hne] at h
  exact absurd h (by simp)

theorem loadHistory_saveStepData (d : StepData) (st : LocalStorage) :
    StorageManager.loadHistory (StorageManager.saveStepData d st).2 =
      StorageManager.loadHistory st := by
  unfold StorageManager.saveStepData
  by_cases h : 0 ≤ d.steps ∧ 0 ≤ d.timestamp
  · rw [if_pos h]
    simp [StorageManager.loadHistory]
  · rw [if_neg h]

/-! ## C3: boundary symmetry -/

/-- C3: for every valid `HH:MM` reset-time string and every instant `now`,
`calculateLastResetTime` equals `calculateNextResetTime` minus exactly 24
hours (including the edge case `now` = same-day boundary instant, where
`nextBoundary` takes the next-day branch and `lastBoundary` returns the
instant itself). -/
theorem boundary_symmetry (s : String) (now : Int)
    (hv : validResetTime s = true) :
    ResetTimer.calculateLastResetTime s now =
      (ResetTimer.calculateNextResetTime s now).map (fun t => t - msPerDay) := by
  obtain ⟨h, m, hp⟩ := validResetTime_parse s hv
  unfold ResetTimer.calculateLastResetTime ResetTimer.calculateNextResetTime
  rw [hp]
  simp only [Option.map_some']
  congr 1
  split_ifs with h1 h2 h2 <;> omega

/-- C3 witness: the symmetry at reset time `15:00` and an instant at a
day boundary (the edge case). -/
theorem boundary_symmetry_witness :
    validResetTime "15:00" = true ∧
      ResetTimer.calculateLastResetTime "15:00" 172800000 =
        (ResetTimer.calculateNextResetTime "15:00" 172800000).map
          (fun t => t - msPerDay) :=
  ⟨by decide, boundary_symmetry "15:00" 172800000 (by decide)⟩

/-! ## C5: non-negativity of the externally observable count -/

/-- C5: after any sequence of initialize / motion / reset operations, and
even when the internal count field has been forced negative by external
corruption, `getCurrentSteps` returns `max 0 currentSteps`, which is
non-negative. -/
theorem getCount_nonneg (p : SCState × LocalStorage) (ops : List SCOp) :
    StepCounter.getCurrentSteps (runOps p ops).1 =
      max 0 (runOps p ops).1.currentSteps ∧
    0 ≤ StepCounter.getCurrentSteps (runOps p ops).1 :=
  ⟨rfl, le_max_left 0 _⟩

/-! ## C6: reset-time round-trip -/

/-- C6: a string matching the `HH:MM` grammar is accepted by
`setResetTime` and read back verbatim by `getResetTime`; a non-matching
string is rejected with storage untouched, and `getResetTime` always
yields either the stored value or the default `00:00`. -/
theorem resetTime_roundtrip (st : LocalStorage) (s : String) :
    (validResetTime s = true →
      (StorageManager.setResetTime s st).1 = true ∧
        StorageManager.getResetTime (StorageManager.setResetTime s st).2 = s) ∧
    (validResetTime s = false →
      StorageManager.setResetTime s st = (false, st)) ∧
    (StorageManager.getResetTime st = DEFAULT_RESET_TIME ∨
      st.resetTime = some (StorageManager.getResetTime st)) := by
  refine ⟨?_, ?_, ?_⟩
  · intro hv
    unfold StorageManager.setResetTime
    rw [if_pos hv]
    refine ⟨rfl, ?_⟩
    unfold StorageManager.getResetTime
    simp [hv]
  · intro hv
    unfold StorageManager.setResetTime
    rw [if_neg (by simp [hv])]
  · rcases hrt : st.resetTime with _ | t
    · left
      unfold StorageManager.getResetTime
      rw [hrt]
    · by_cases h : validResetTime t = true
      · right
        unfold StorageManager.getResetTime
        rw [hrt]
        simp [h]
      · left
        unfold StorageManager.getResetTime
        rw [hrt]
        simp [h]

/-- C6 witness: `23:59` round-trips; `24:00` is rejected leaving storage
unchanged. -/
theorem resetTime_roundtrip_witness :
    ((StorageManager.setResetTime "23:59" emptyStorage).1 = true ∧
      StorageManager.getResetTime
        (StorageManager.setResetTime "23:59" emptyStorage).2 = "23:59") ∧
    StorageManager.setResetTime "24:00" emptyStorage = (false, emptyStorage) :=
  ⟨(resetTime_roundtrip emptyStorage "23:59").1 (by decide),
   (resetTime_roundtrip emptyStorage "24:00").2.1 (by decide)⟩

/-! ## C7: history capped at the 30 most recent entries -/

theorem saveAll_load (l : List HistoryEntry) :
    ∀ st : LocalStorage, (∀ e ∈ l, validHistoryEntry e = true) →
      (StorageManager.loadHistory st).length ≤ 30 →
      StorageManager.loadHistory (saveAllHistory l st) =
        sliceLast30 (StorageManager.loadHistory st ++ l) := by
  induction l with
  | nil =>
    intro st _ hlen
    unfold saveAllHistory
    simp only [List.foldl_nil, List.append_nil]
    unfold sliceLast30
    have h0 : (StorageManager.loadHistory st).length - 30 = 0 := by omega
    rw [h0, List.drop_zero]
  | cons e l ih =>
    intro st hval hlen
    have he : validHistoryEntry e = true := hval e (List.mem_cons_self e l)
    have hsave := load_saveHistory e st he
    have ihe := ih (StorageManager.saveHistory e st).2
      (fun x hx => hval x (List.mem_cons_of_mem e hx))
      (by rw [hsave.2]; exact sliceLast30_length_le _)
    unfold saveAllHistory
    rw [List.foldl_cons]
    unfold saveAllHistory at ihe
    rw [ihe, hsave.2, sliceLast30_append, List.append_assoc,
      List.singleton_append]

/-- C7: a successful `saveHistory` always leaves at most 30 loadable
entries, and saving a list of valid entries into empty storage retains
exactly the most recent 30 in order (35 saves evict the oldest 5). -/
theorem history_cap :
    (∀ (st : LocalStorage) (e : HistoryEntry),
        (StorageManager.saveHistory e st).1 = true →
        (StorageManager.loadHistory
          (StorageManager.saveHistory e st).2).length ≤ 30) ∧
    (∀ l : List HistoryEntry, (∀ e ∈ l, validHistoryEntry e = true) →
        StorageManager.loadHistory (saveAllHistory l emptyStorage) =
          l.drop (l.length - 30)) := by
  constructor
  · intro st e h
    have he := saveHistory_success e st h
    rw [(load_saveHistory e st he).2]
    exact sliceLast30_length_le _
  · intro l hval
    have h := saveAll_load l emptyStorage hval (by decide)
    have h0 : StorageManager.loadHistory emptyStorage = [] := rfl
    rw [h0, List.nil_append] at h
    unfold sliceLast30 at h
    exact h

/-- C7 witness: one successful save stays within the cap, and the 35
concrete saves keep exactly the most recent 30 (`drop (35 - 30)`). -/
theorem history_cap_witness :
    (StorageManager.loadHistory
        (StorageManager.saveHistory ⟨7, "d"⟩ emptyStorage).2).length ≤ 30 ∧
    StorageManager.loadHistory (saveAllHistory w35 emptyStorage) =
      w35.drop (w35.length - 30) :=
  ⟨history_cap.1 emptyStorage ⟨7, "d"⟩ (by decide),
   history_cap.2 w35 (by decide)⟩

/-! ## C4: executeReset archives the pre-reset count -/

theorem executeReset_history (sys : System) (now : Int) :
    StorageManager.loadHistory (ResetTimer.executeReset sys now).storage =
      sliceLast30 (StorageManager.loadHistory sys.storage ++
        [⟨StepCounter.getCurrentSteps sys.counter, toISOString now⟩]) := by
  have he : validHistoryEntry
      ⟨StepCounter.getCurrentSteps sys.counter, toISOString now⟩ = true := by
    rw [validHistoryEntry_iff]
    exact ⟨le_max_left 0 _, toISOString_ne_empty now⟩
  have hsave := load_saveHistory
    ⟨StepCounter.getCurrentSteps sys.counter, toISOString now⟩ sys.storage he
  dsimp only [ResetTimer.executeReset, StepCounter.reset]
  rw [loadHistory_saveStepData]
  exact hsave.2

theorem executeReset_zeroes (sys : System) (now : Int) :
    (ResetTimer.executeReset sys now).counter.currentSteps = 0 := rfl

/-- C4: `executeReset` appends exactly one history entry whose steps field
is the pre-reset `getCurrentSteps()` value, that entry is the most recent
one, and only afterwards is the count zeroed; the archived value is the
pre-reset count, never the post-reset zero. -/
theorem executeReset_archives (sys : System) (now : Int) :
    StorageManager.loadHistory (ResetTimer.executeReset sys now).storage =
      sliceLast30 (StorageManager.loadHistory sys.storage ++
        [⟨StepCounter.getCurrentSteps sys.counter, toISOString now⟩]) ∧
    (StorageManager.loadHistory
        (ResetTimer.executeReset sys now).storage).getLast? =
      some ⟨StepCounter.getCurrentSteps sys.counter, toISOString now⟩ ∧
    (ResetTimer.executeReset sys now).counter.currentSteps = 0 := by
  refine ⟨executeReset_history sys now, ?_, executeReset_zeroes sys now⟩
  rw [executeReset_history sys now]
  exact sliceLast30_concat_getLast _ _

/-! ## C2: catch-up reset at start() -/

theorem getResetTime_valid (st : LocalStorage) :
    validResetTime (StorageManager.getResetTime st) = true := by
  unfold StorageManager.getResetTime
  rcases st.resetTime with _ | t
  · decide
  · by_cases h : validResetTime t = true
    · simp [h]
    · simp [h]; decide

/-- C2: at `start()`, when a persisted record exists with a timestamp
strictly before the last boundary, `executeReset` runs exactly once,
archiving the pre-reset count and zeroing the counter; when no record
exists or its timestamp is at or after the last boundary, no catch-up
reset occurs (counter and storage are untouched; only the timer is armed). -/
theorem start_catchup (sys : System) (now lb : Int)
    (hlb : ResetTimer.calculateLastResetTime
        (StorageManager.getResetTime sys.storage) now = some lb) :
    (∀ d : StepData, StorageManager.loadStepData sys.storage = some d →
        d.timestamp < lb →
        (ResetTimer.start sys now).2 = 1 ∧
        ((ResetTimer.start sys now).1).counter.currentSteps = 0 ∧
        StorageManager.loadHistory ((ResetTimer.start sys now).1).storage =
          sliceLast30 (StorageManager.loadHistory sys.storage ++
            [⟨StepCounter.getCurrentSteps sys.counter, toISOString now⟩])) ∧
    ((StorageManager.loadStepData sys.storage = none ∨
        (∃ d : StepData, StorageManager.loadStepData sys.storage = some d ∧
          lb ≤ d.timestamp)) →
        (ResetTimer.start sys now).2 = 0 ∧
        ((ResetTimer.start sys now).1).counter = sys.counter ∧
        ((ResetTimer.start sys now).1).storage = sys.storage) := by
  obtain ⟨h, m, hp⟩ :=
    validResetTime_parse _ (getResetTime_valid sys.storage)
  have hnext : ∃ n, ResetTimer.calculateNextResetTime
      (StorageManager.getResetTime sys.storage) now = some n := by
    unfold ResetTimer.calculateNextResetTime
    rw [hp]
    exact ⟨_, rfl⟩
  obtain ⟨n, hnext⟩ := hnext
  constructor
  · intro d hd hlt
    have hstart : ResetTimer.start sys now =
        (ResetTimer.scheduleReset (ResetTimer.executeReset sys now) (n - now), 1) := by
      simp only [ResetTimer.start, hnext, hlb, hd, if_pos hlt]
    rw [hstart]
    exact ⟨rfl, executeReset_zeroes sys now, executeReset_history sys now⟩
  · intro hcase
    rcases hload : StorageManager.loadStepData sys.storage with _ | d
    · have hstart : ResetTimer.start sys now =
          (ResetTimer.scheduleReset sys (n - now), 0) := by
        simp only [ResetTimer.start, hnext, hlb, hload]
      rw [hstart]
      exact ⟨rfl, rfl, rfl⟩
    · rcases hcase with hnone | ⟨d2, hd2, hge⟩
      · rw [hload] at hnone; cases hnone
      · rw [hload] at hd2
        injection hd2 with hd2
        subst hd2
        have hstart : ResetTimer.start sys now =
            (ResetTimer.scheduleReset sys (n - now), 0) := by
          simp only [ResetTimer.start, hnext, hlb, hload,
            if_neg (not_lt.mpr hge)]
        rw [hstart]
        exact ⟨rfl, rfl, rfl⟩

/-- C2 witness: a stale record (timestamp 0, boundary 140400000) triggers
the catch-up exactly once; a fresh record (timestamp 150000000) does not. -/
theorem start_catchup_witness :
    ((ResetTimer.start sampleSystem 172800000).2 = 1 ∧
      ((ResetTimer.start sampleSystem 172800000).1).counter.currentSteps = 0 ∧
      StorageManager.loadHistory
          ((ResetTimer.start sampleSystem 172800000).1).storage =
        sliceLast30 (StorageManager.loadHistory sampleSystem.storage ++
          [⟨StepCounter.getCurrentSteps sampleSystem.counter,
            toISOString 172800000⟩])) ∧
    ((ResetTimer.start sampleSystem2 172800000).2 = 0 ∧
      ((ResetTimer.start sampleSystem2 172800000).1).counter =
        sampleSystem2.counter ∧
      ((ResetTimer.start sampleSystem2 172800000).1).storage =
        sampleSystem2.storage) :=
  ⟨(start_catchup sampleSystem 172800000 140400000 (by decide)).1
      ⟨5, 0⟩ (by decide) (by decide),
   (start_catchup sampleSystem2 172800000 140400000 (by decide)).2
      (Or.inr ⟨⟨5, 150000000⟩, by decide, by decide⟩)⟩

/-! ## C1 and C8: sample classification and its frame -/

theorem onMotion_step (sc : SCState) (st : LocalStorage) (a : Accel)
    (now : Int)
    (hcond : sqrtGt (magSq a) sc.stepThreshold ∧
      sc.minStepInterval ≤ now - sc.lastStepTime) :
    (StepCounter.onMotionDetected sc st a now).counter.currentSteps =
        sc.currentSteps + 1 ∧
    (StepCounter.onMotionDetected sc st a now).counter.lastStepTime = now ∧
    (StepCounter.onMotionDetected sc st a now).counter.stepThreshold =
        sc.stepThreshold ∧
    (StepCounter.onMotionDetected sc st a now).counter.minStepInterval =
        sc.minStepInterval ∧
    (StepCounter.onMotionDetected sc st a now).trace.notifies =
        [sc.currentSteps + 1] := by
  unfold StepCounter.onMotionDetected StepCounter.notifyMotionDetected
    StepCounter.isStep StepCounter.incrementStep
  by_cases hmax : sc.maxMagnitudeSq = 0 ∨ sc.maxMagnitudeSq < magSq a
  · simp [hmax, hcond]
  · simp [hmax, hcond]

theorem onMotion_nostep (sc : SCState) (st : LocalStorage) (a : Accel)
    (now : Int)
    (hcond : ¬ (sqrtGt (magSq a) sc.stepThreshold ∧
      sc.minStepInterval ≤ now - sc.lastStepTime)) :
    (StepCounter.onMotionDetected sc st a now).counter.currentSteps =
        sc.currentSteps ∧
    (StepCounter.onMotionDetected sc st a now).counter.lastStepTime =
        sc.lastStepTime ∧
    (StepCounter.onMotionDetected sc st a now).counter.stepThreshold =
        sc.stepThreshold ∧
    (StepCounter.onMotionDetected sc st a now).counter.minStepInterval =
        sc.minStepInterval ∧
    (StepCounter.onMotionDetected sc st a now).storage = st ∧
    (StepCounter.onMotionDetected sc st a now).trace = ⟨[], []⟩ ∧
    (StepCounter.onMotionDetected sc st a now).counter.motionCount =
        sc.motionCount + 1 := by
  unfold StepCounter.onMotionDetected StepCounter.notifyMotionDetected
    StepCounter.isStep
  by_cases hmax : sc.maxMagnitudeSq = 0 ∨ sc.maxMagnitudeSq < magSq a
  · simp [hmax, hcond]
  · simp [hmax, hcond]

/-- C1: a sample increments the count by exactly 1 iff its Euclidean
magnitude strictly exceeds the threshold and the debounce window has
elapsed; an accepted sample sets the last-step timestamp to `now`; two
qualifying samples within the debounce window of each other produce
exactly one increment. -/
theorem step_classification (sc : SCState) (st : LocalStorage) (a : Accel)
    (now : Int) :
    ((StepCounter.onMotionDetected sc st a now).counter.currentSteps =
        sc.currentSteps + 1 ↔
      ((sc.stepThreshold : ℝ) < Real.sqrt ((magSq a : ℚ) : ℝ) ∧
        sc.minStepInterval ≤ now - sc.lastStepTime)) ∧
    (((sc.stepThreshold : ℝ) < Real.sqrt ((magSq a : ℚ) : ℝ) ∧
        sc.minStepInterval ≤ now - sc.lastStepTime) →
      (StepCounter.onMotionDetected sc st a now).counter.lastStepTime = now) ∧
    (∀ (a2 : Accel) (now2 : Int),
      (((sc.stepThreshold : ℝ) < Real.sqrt ((magSq a : ℚ) : ℝ) ∧
        sc.minStepInterval ≤ now - sc.lastStepTime)) →
      now2 - now < sc.minStepInterval →
      (StepCounter.onMotionDetected
        (StepCounter.onMotionDetected sc st a now).counter
        (StepCounter.onMotionDetected sc st a now).storage
        a2 now2).counter.currentSteps = sc.currentSteps + 1) := by
  have hiff : sqrtGt (magSq a) sc.stepThreshold ↔
      (sc.stepThreshold : ℝ) < Real.sqrt ((magSq a : ℚ) : ℝ) :=
    sqrtGt_iff_real _ _ (magSq_nonneg a)
  refine ⟨?_, ?_, ?_⟩
  · constructor
    · intro h1
      by_contra h2
      have hno : ¬ (sqrtGt (magSq a) sc.stepThreshold ∧
          sc.minStepInterval ≤ now - sc.lastStepTime) := by
        intro hc
        exact h2 ⟨hiff.mp hc.1, hc.2⟩
      have := (onMotion_nostep sc st a now hno).1
      omega
    · intro h2
      exact (onMotion_step sc st a now ⟨hiff.mpr h2.1, h2.2⟩).1
  · intro h2
    exact (onMotion_step sc st a now ⟨hiff.mpr h2.1, h2.2⟩).2.1
  · intro a2 now2 hc1 hlt
    obtain ⟨hs1, hs2, hs3, hs4, _⟩ :=
      onMotion_step sc st a now ⟨hiff.mpr hc1.1, hc1.2⟩
    have hno2 : ¬ (sqrtGt (magSq a2)
          (StepCounter.onMotionDetected sc st a now).counter.stepThreshold ∧
        (StepCounter.onMotionDetected sc st a now).counter.minStepInterval ≤
          now2 - (StepCounter.onMotionDetected sc st a now).counter.lastStepTime) := by
      rintro ⟨_, habs⟩
      rw [hs4, hs2] at habs
      omega
    have h2 := (onMotion_nostep
      (StepCounter.onMotionDetected sc st a now).counter
      (StepCounter.onMotionDetected sc st a now).storage a2 now2 hno2).1
    rw [h2, hs1]

/-- C1 witness: with the constructor state, a magnitude-3 sample at
t = 1000 increments to 1 and stamps the time; a second magnitude-3 sample
100 ms later (inside the 200 ms window) leaves the count at 1. -/
theorem step_classification_witness :
    (StepCounter.onMotionDetected initSC emptyStorage ⟨1, 2, 2⟩ 1000).counter.currentSteps =
        initSC.currentSteps + 1 ∧
    (StepCounter.onMotionDetected initSC emptyStorage ⟨1, 2, 2⟩ 1000).counter.lastStepTime =
        1000 ∧
    (StepCounter.onMotionDetected
        (StepCounter.onMotionDetected initSC emptyStorage ⟨1, 2, 2⟩ 1000).counter
        (StepCounter.onMotionDetected initSC emptyStorage ⟨1, 2, 2⟩ 1000).storage
        ⟨2, 1, 2⟩ 1100).counter.currentSteps = initSC.currentSteps + 1 := by
  have hsq : ((initSC.stepThreshold : ℚ) : ℝ) <
      Real.sqrt ((magSq ⟨1, 2, 2⟩ : ℚ) : ℝ) := by
    have h9 : ((magSq ⟨1, 2, 2⟩ : ℚ) : ℝ) = 9 := by
      norm_num [magSq]
    have hth : ((initSC.stepThreshold : ℚ) : ℝ) = 1 / 2 := by
      norm_num [initSC]
    rw [h9, hth, show (9 : ℝ) = 3 ^ 2 by norm_num,
      Real.sqrt_sq (by norm_num : (0 : ℝ) ≤ 3)]
    norm_num
  obtain ⟨hA, hB, hC⟩ :=
    step_classification initSC emptyStorage ⟨1, 2, 2⟩ 1000
  exact ⟨hA.mpr ⟨hsq, by decide⟩, hB ⟨hsq, by decide⟩,
    hC ⟨2, 1, 2⟩ 1100 ⟨hsq, by decide⟩ (by decide)⟩

/-- C8 counterexample: a non-qualifying sample (magnitude 1/4 below the
threshold 1/2) leaves count, timestamp, storage and trace unchanged, yet
the resulting `StepCounter` state differs from the initial one: the debug
field `motionCount` is incremented on every sample (and `maxMagnitudeSq`
may change), so the claim "leaves all of the StepCounter's state
unchanged" fails. -/
theorem non_step_frame_cex :
    (StepCounter.onMotionDetected initSC emptyStorage ⟨1/4, 0, 0⟩ 300).trace =
        ⟨[], []⟩ ∧
    (StepCounter.onMotionDetected initSC emptyStorage ⟨1/4, 0, 0⟩ 300).counter.currentSteps =
        initSC.currentSteps ∧
    (StepCounter.onMotionDetected initSC emptyStorage ⟨1/4, 0, 0⟩ 300).counter.motionCount = 1 ∧
    initSC.motionCount = 0 ∧
    (StepCounter.onMotionDetected initSC emptyStorage ⟨1/4, 0, 0⟩ 300).counter ≠
        initSC := by
  have hno : ¬ (sqrtGt (magSq ⟨1/4, 0, 0⟩) initSC.stepThreshold ∧
      initSC.minStepInterval ≤ (300 : Int) - initSC.lastStepTime) := by
    rintro ⟨h | h, -⟩
    · norm_num [initSC] at h
    · norm_num [magSq, initSC] at h
  obtain ⟨h1, _, _, _, _, h6, h7⟩ :=
    onMotion_nostep initSC emptyStorage ⟨1/4, 0, 0⟩ 300 hno
  refine ⟨h6, h1, ?_, rfl, ?_⟩
  · rw [h7]
    norm_num [initSC]
  · intro heq
    have hmc := congrArg SCState.motionCount heq
    rw [h7] at hmc
    norm_num [initSC] at hmc

/-- C8 (amended): a sample that is not classified as a step leaves the
count, the debounce timestamp, the storage and the effect trace (no
persistence write, no observer notification) unchanged; only the debug
fields `motionCount` and `maxMagnitudeSq` may change. -/
theorem non_step_frame (sc : SCState) (st : LocalStorage) (a : Accel)
    (now : Int)
    (h : ¬ ((sc.stepThreshold : ℝ) < Real.sqrt ((magSq a : ℚ) : ℝ) ∧
      sc.minStepInterval ≤ now - sc.lastStepTime)) :
    (StepCounter.onMotionDetected sc st a now).counter.currentSteps =
        sc.currentSteps ∧
    (StepCounter.onMotionDetected sc st a now).counter.lastStepTime =
        sc.lastStepTime ∧
    (StepCounter.onMotionDetected sc st a now).storage = st ∧
    (StepCounter.onMotionDetected sc st a now).trace = ⟨[], []⟩ := by
  have hno : ¬ (sqrtGt (magSq a) sc.stepThreshold ∧
      sc.minStepInterval ≤ now - sc.lastStepTime) := by
    intro hc
    exact h ⟨(sqrtGt_iff_real _ _ (magSq_nonneg a)).mp hc.1, hc.2⟩
  obtain ⟨h1, h2, _, _, h5, h6, _⟩ := onMotion_nostep sc st a now hno
  exact ⟨h1, h2, h5, h6⟩

/-- C8 witness: a sample arriving before the debounce window has elapsed
is not a step and leaves the observable state untouched. -/
theorem non_step_frame_witness :
    (StepCounter.onMotionDetected initSC emptyStorage ⟨1, 2, 2⟩ 0).counter.currentSteps =
        initSC.currentSteps ∧
    (StepCounter.onMotionDetected initSC emptyStorage ⟨1, 2, 2⟩ 0).counter.lastStepTime =
        initSC.lastStepTime ∧
    (StepCounter.onMotionDetected initSC emptyStorage ⟨1, 2, 2⟩ 0).storage =
        emptyStorage ∧
    (StepCounter.onMotionDetected initSC emptyStorage ⟨1, 2, 2⟩ 0).trace =
        ⟨[], []⟩ :=
  non_step_frame initSC emptyStorage ⟨1, 2, 2⟩ 0
    (fun hc => absurd hc.2 (by decide))

/-! ## C9: throwing observers do not interrupt the fan-out -/

theorem notify_eq_map (observers : List (Int → Except String Unit))
    (count : Int) :
    StepCounter.notifyObservers observers count =
      observers.map (fun o => o count) := by
  induction observers with
  | nil => rfl
  | cons o rest ih =>
    unfold StepCounter.notifyObservers
    cases ho : o count with
    | error e => simp only [ho, ih, List.map_cons]
    | ok u =>
      cases u
      simp only [ho, ih, List.map_cons]

/-- C9: the fan-out invokes every observer in order with the delivered
count, recording each outcome; in particular a throwing observer anywhere
in the list never prevents the observers after it from being invoked. -/
theorem observer_isolation :
    (∀ (observers : List (Int → Except String Unit)) (count : Int),
        StepCounter.notifyObservers observers count =
          observers.map (fun o => o count)) ∧
    (∀ (pre post : List (Int → Except String Unit))
        (o : Int → Except String Unit) (count : Int) (e : String),
        o count = Except.error e →
        StepCounter.notifyObservers (pre ++ o :: post) count =
          pre.map (fun o2 => o2 count) ++
            Except.error e :: post.map (fun o2 => o2 count)) := by
  refine ⟨notify_eq_map, ?_⟩
  intro pre post o count e ho
  rw [notify_eq_map, List.map_append, List.map_cons, ho]

/-- C9 witness: a throwing observer between two healthy ones still lets
both peers be invoked and their outcomes recorded. -/
theorem observer_isolation_witness :
    StepCounter.notifyObservers
        ([fun _ => Except.ok ()] ++
          (fun _ => Except.error "boom") :: [fun _ => Except.ok ()]) 3 =
      List.map (fun o2 => o2 3) [fun _ => Except.ok ()] ++
        Except.error "boom" ::
          List.map (fun o2 => o2 3) [fun _ => Except.ok ()] :=
  observer_isolation.2 [fun _ => Except.ok ()] [fun _ => Except.ok ()]
    (fun _ => Except.error "boom") 3 "boom" rfl

/-! ## C10: observers receive the raw internal count -/

/-- C10 counterexample: with the internal count corrupted to `-5`, the
reset notification delivers `0`, not the negative number — `reset` zeroes
`currentSteps` before calling the observer fan-out — even though
`getCurrentSteps` also returns `0`. -/
theorem notify_reset_cex :
    (StepCounter.reset ⟨-5, 0, 1/2, 200, 0, 0⟩ emptyStorage 0).trace.notifies =
        [0] ∧
    StepCounter.getCurrentSteps ⟨-5, 0, 1/2, 200, 0, 0⟩ = 0 ∧
    (∀ v ∈ (StepCounter.reset ⟨-5, 0, 1/2, 200, 0, 0⟩
        emptyStorage 0).trace.notifies, 0 ≤ v) := by
  refine ⟨rfl, rfl, ?_⟩
  intro v hv
  have : v = 0 := by
    have hn : (StepCounter.reset (⟨-5, 0, 1/2, 200, 0, 0⟩ : SCState)
        emptyStorage 0).trace.notifies = [0] := rfl
    rw [hn] at hv
    simpa using hv
  omega

/-- C10 (amended): observer notifications carry the raw internal count
field at notification time: an increment notification delivers the raw
incremented value `currentSteps + 1` (negative whenever the count was
corrupted below `-1`, while `getCurrentSteps` reports 0), whereas a reset
notification always delivers `0` because the field is zeroed before the
fan-out. -/
theorem notify_raw_count (sc : SCState) (st : LocalStorage) (now : Int) :
    (StepCounter.incrementStep sc st now).trace.notifies =
        [sc.currentSteps + 1] ∧
    (StepCounter.reset sc st now).trace.notifies = [0] ∧
    (sc.currentSteps + 1 < 0 →
      StepCounter.getCurrentSteps
        (StepCounter.incrementStep sc st now).counter = 0) := by
  refine ⟨rfl, rfl, ?_⟩
  intro h
  show max 0 (sc.currentSteps + 1) = 0
  exact max_eq_left (by omega)

/-- C10 witness: from a count corrupted to `-5`, the increment
notification delivers `-4` while `getCurrentSteps` reports `0`. -/
theorem notify_raw_count_witness :
    (StepCounter.incrementStep ⟨-5, 0, 1/2, 200, 0, 0⟩
        emptyStorage 0).trace.notifies = [(-5 : Int) + 1] ∧
    StepCounter.getCurrentSteps
      (StepCounter.incrementStep ⟨-5, 0, 1/2, 200, 0, 0⟩
        emptyStorage 0).counter = 0 :=
  ⟨(notify_raw_count ⟨-5, 0, 1/2, 200, 0, 0⟩ emptyStorage 0).1,
   (notify_raw_count ⟨-5, 0, 1/2, 200, 0, 0⟩ emptyStorage 0).2.2 (by decide)⟩
